import Mathlib

/-!
Verification of the soft-body lattice simulation (`src/grid.rs`, `src/main.rs`).

The Rust code works on `f32` values.  We embed an `f32` value as `Option ℚ`:
`some q` models a finite value with exact-rational arithmetic, and `none`
models a non-finite value (NaN or an infinity).  Arithmetic propagates
`none`, and division by a zero denominator produces `none`: this mirrors the
one way the simulation itself can create a non-finite value (the spring
term's division by a zero distance gives IEEE `0.0/0.0 = NaN`, and every
later operation on it stays non-finite).

The per-node parallel maps (`rayon`'s `par_iter().enumerate().map(...)` over
an immutable snapshot with `collect` into a fresh array) are embedded as pure
indexed maps over the snapshot, which is exactly the function those
combinators compute for any schedule.
-/

/-- An `f32` value: `some q` is a finite value (exact rational model), `none`
is a non-finite value (NaN/infinity). -/
abbrev F : Type := Option ℚ

/-- Addition, propagating non-finite values. -/
def fadd : F → F → F
  | some a, some b => some (a + b)
  | _, _ => none

/-- Subtraction, propagating non-finite values. -/
def fsub : F → F → F
  | some a, some b => some (a - b)
  | _, _ => none

/-- Multiplication, propagating non-finite values. -/
def fmul : F → F → F
  | some a, some b => some (a * b)
  | _, _ => none

/-- Negation, propagating non-finite values. -/
def fneg : F → F
  | some a => some (-a)
  | none => none

/-- Division: a zero denominator yields a non-finite value (in the code the
numerator at such a site is also zero, so `f32` gives `0.0/0.0 = NaN`);
otherwise exact rational division. -/
def fdiv : F → F → F
  | some a, some b => if b = 0 then none else some (a / b)
  | _, _ => none

/-- Exact model of `f32::sqrt` on rationals; exact on perfect squares
(`sqrtQ 0 = 0`, `sqrtQ 1 = 1`), which are the only values any theorem below
depends on. -/
def sqrtQ (q : ℚ) : ℚ := (Nat.sqrt q.num.toNat : ℚ) / (Nat.sqrt q.den : ℚ)

/-- Model of `f32::sqrt`: NaN on negative input, `sqrtQ` otherwise. -/
def fsqrt : F → F
  | some a => if a < 0 then none else some (sqrtQ a)
  | none => none

-- Constants from the top of `grid.rs`.

/-- `const MASS: f32 = 0.01` -/
def MASS : F := some (1 / 100)

/-- `const GRAVITY: f32 = -9.81` -/
def GRAVITY : F := some (-(981 / 100))

/-- `const SPRING_RELAX_DISTANCE: f32 = 1.0` -/
def SPRING_RELAX_DISTANCE : F := some 1

/-- `const SPRING_COEFFICIENT: f32 = 10.0` -/
def SPRING_COEFFICIENT : F := some 10

/-- `const DAMPING_COEFFICIENT: f32 = 0.03` -/
def DAMPING_COEFFICIENT : F := some (3 / 100)

/-- `const EXTERNAL_MAGNITUDE: f32 = 0.2` -/
def EXTERNAL_MAGNITUDE : F := some (1 / 5)

/-- The literal `0.5` in the position update. -/
def HALF : F := some (1 / 2)

/-- A 2-D value, as the code's `(f32, f32)` pairs. -/
abbrev P : Type := F × F

/-- Default used for out-of-range indexing (never reached on well-formed
grids). -/
def pd : P := (none, none)

/-- The `Grid` struct of `grid.rs`. -/
structure Grid where
  width : Nat
  height : Nat
  positions : List P
  velocities : List P
  fixed : List Bool
  neighbours : List (List Nat)
deriving DecidableEq

/-- `Grid::get_index`: `n * self.height + m`, with no bounds check. -/
def Grid.get_index (g : Grid) (n m : Nat) : Nat := n * g.height + m

/-- `Grid::new(width, height)`: nodes on a unit grid, x-major then y, with
position `((width/2) as f32 * -1.0 + x, 10.0 + (height/2) as f32 * -1.0 + y)`
(integer division), zero velocities, all nodes free, empty adjacency. -/
def Grid.new (width height : Nat) : Grid :=
  { width := width
    height := height
    positions :=
      (List.range width).flatMap (fun x =>
        (List.range height).map (fun y =>
          ((some (((width / 2 : Nat) : ℚ) * (-1) + (x : ℚ)) : F),
           (some ((10 : ℚ) + ((height / 2 : Nat) : ℚ) * (-1) + (y : ℚ)) : F))))
    velocities := List.replicate (width * height) ((some 0 : F), (some 0 : F))
    fixed := List.replicate (width * height) false
    neighbours := List.replicate (width * height) [] }

/-- The list the body of `Grid::get_neighbors` pushes for one `(x, y)`:
right, left, up, down neighbours, each guarded exactly as in the source. -/
def neighborList (g : Grid) (x y : Nat) : List Nat :=
  (if x ≠ g.width - 1 then [g.get_index (x + 1) y] else []) ++
  (if x ≠ 0 then [g.get_index (x - 1) y] else []) ++
  (if y ≠ g.height - 1 then [g.get_index x (y + 1)] else []) ++
  (if y ≠ 0 then [g.get_index x (y - 1)] else [])

/-- `Grid::get_neighbors`: the double loop over `x < width`, `y < height`,
writing `neighborList` into `self.neighbours[get_index x y]`. -/
def Grid.get_neighbors (g : Grid) : Grid :=
  { g with neighbours :=
      (List.range g.width).foldl (fun accx x =>
        (List.range g.height).foldl (fun accy y =>
          accy.set (g.get_index x y) (neighborList g x y)) accx) g.neighbours }

/-- One iteration of the spring-force accumulation loop (`for &neighbor_index
in &neighbours[index]`), textually identical in `calculate_forces` and
`calculate_forces_with_gravity`: adds `magnitude * displacement / distance`
to the accumulator. -/
def springBody (positions : List P) (position : P) (acc : P) (j : Nat) : P :=
  let neighbor_position := positions.getD j pd
  let displacement_x := fsub neighbor_position.1 position.1
  let displacement_y := fsub neighbor_position.2 position.2
  let distance := fsqrt (fadd (fmul displacement_x displacement_x)
                              (fmul displacement_y displacement_y))
  let magnitude := fmul SPRING_COEFFICIENT (fsub distance SPRING_RELAX_DISTANCE)
  (fadd acc.1 (fdiv (fmul magnitude displacement_x) distance),
   fadd acc.2 (fdiv (fmul magnitude displacement_y) distance))

/-- The spring-force accumulation loop: starts from the code's `(0.0, 0.0)`
and runs `springBody` over the node's neighbour list. -/
def springSum (positions : List P) (position : P) (nbrs : List Nat) : P :=
  nbrs.foldl (springBody positions position) ((some 0 : F), (some 0 : F))

/-- Net force of a free node in `calculate_forces`: spring sum, then damping,
then (when `externalbool`) the random perturbation `sample * 0.2` per axis.
`rnd i` is the pair of samples drawn for node `i`. -/
def totalForce (g : Grid) (externalbool : Bool) (rnd : Nat → ℚ × ℚ) (i : Nat)
    (position : P) : P :=
  let s := springSum g.positions position (g.neighbours.getD i [])
  let current_velocity := g.velocities.getD i pd
  let f1 : P := (fadd s.1 (fmul (fneg current_velocity.1) DAMPING_COEFFICIENT),
                 fadd s.2 (fmul (fneg current_velocity.2) DAMPING_COEFFICIENT))
  if externalbool then
    (fadd f1.1 (fmul (some (rnd i).1) EXTERNAL_MAGNITUDE),
     fadd f1.2 (fmul (some (rnd i).2) EXTERNAL_MAGNITUDE))
  else f1

/-- Net force of a free node in `calculate_forces_with_gravity`: as
`totalForce`, with `GRAVITY * MASS` added to the y component between the
damping and the external term, exactly as in the source. -/
def totalForceGravity (g : Grid) (externalbool : Bool) (rnd : Nat → ℚ × ℚ) (i : Nat)
    (position : P) : P :=
  let s := springSum g.positions position (g.neighbours.getD i [])
  let current_velocity := g.velocities.getD i pd
  let f1 : P := (fadd s.1 (fmul (fneg current_velocity.1) DAMPING_COEFFICIENT),
                 fadd s.2 (fmul (fneg current_velocity.2) DAMPING_COEFFICIENT))
  let f2 : P := (f1.1, fadd f1.2 (fmul GRAVITY MASS))
  if externalbool then
    (fadd f2.1 (fmul (some (rnd i).1) EXTERNAL_MAGNITUDE),
     fadd f2.2 (fmul (some (rnd i).2) EXTERNAL_MAGNITUDE))
  else f2

/-- Phase-1 body of `calculate_forces` for node `i`: fixed nodes return
their position; otherwise `position + velocity*dt + 0.5*acceleration*dt^2`
componentwise, with `acceleration = total_force / MASS`. -/
def newPosition (g : Grid) (delta_t : F) (externalbool : Bool) (rnd : Nat → ℚ × ℚ)
    (i : Nat) (position : P) : P :=
  if g.fixed.getD i false then position
  else
    let current_velocity := g.velocities.getD i pd
    let tf := totalForce g externalbool rnd i position
    let acceleration_x := fdiv tf.1 MASS
    let acceleration_y := fdiv tf.2 MASS
    (fadd (fadd position.1 (fmul current_velocity.1 delta_t))
          (fmul (fmul HALF acceleration_x) (fmul delta_t delta_t)),
     fadd (fadd position.2 (fmul current_velocity.2 delta_t))
          (fmul (fmul HALF acceleration_y) (fmul delta_t delta_t)))

/-- Phase-1 body of `calculate_forces_with_gravity` for node `i`. -/
def newPositionGravity (g : Grid) (delta_t : F) (externalbool : Bool)
    (rnd : Nat → ℚ × ℚ) (i : Nat) (position : P) : P :=
  if g.fixed.getD i false then position
  else
    let current_velocity := g.velocities.getD i pd
    let tf := totalForceGravity g externalbool rnd i position
    let acceleration_x := fdiv tf.1 MASS
    let acceleration_y := fdiv tf.2 MASS
    (fadd (fadd position.1 (fmul current_velocity.1 delta_t))
          (fmul (fmul HALF acceleration_x) (fmul delta_t delta_t)),
     fadd (fadd position.2 (fmul current_velocity.2 delta_t))
          (fmul (fmul HALF acceleration_y) (fmul delta_t delta_t)))

/-- Phase-2 body, shared verbatim by both step functions: fixed nodes keep
their old velocity, free nodes get `(new_position - old_position) / dt`
componentwise. -/
def newVelocity (g : Grid) (delta_t : F) (new_positions : List P) (i : Nat) : P :=
  if g.fixed.getD i false then g.velocities.getD i pd
  else
    let new_position := new_positions.getD i pd
    let old_position := g.positions.getD i pd
    (fdiv (fsub new_position.1 old_position.1) delta_t,
     fdiv (fsub new_position.2 old_position.2) delta_t)

/-- `Grid::calculate_forces(delta_t, externalbool)`: the two-phase parallel
step without gravity.  Both `par_iter().enumerate().map(...).collect()` maps
are embedded as indexed maps over the pre-step snapshot. -/
def calculate_forces (g : Grid) (delta_t : F) (externalbool : Bool)
    (rnd : Nat → ℚ × ℚ) : Grid :=
  let new_positions :=
    (List.range g.positions.length).map (fun i =>
      newPosition g delta_t externalbool rnd i (g.positions.getD i pd))
  let new_velocities :=
    (List.range new_positions.length).map (fun i =>
      newVelocity g delta_t new_positions i)
  { g with positions := new_positions, velocities := new_velocities }

/-- `Grid::calculate_forces_with_gravity(delta_t, externalbool)`. -/
def calculate_forces_with_gravity (g : Grid) (delta_t : F) (externalbool : Bool)
    (rnd : Nat → ℚ × ℚ) : Grid :=
  let new_positions :=
    (List.range g.positions.length).map (fun i =>
      newPositionGravity g delta_t externalbool rnd i (g.positions.getD i pd))
  let new_velocities :=
    (List.range new_positions.length).map (fun i =>
      newVelocity g delta_t new_positions i)
  { g with positions := new_positions, velocities := new_velocities }

/-- Net force parameterized by a gravity flag (written from the spec's words
in §4.4: the two modes "differ only in whether term 3 of §4.3 is included");
compared against the two duplicated source functions in claim C7. -/
def totalForceParam (gravity : Bool) (g : Grid) (externalbool : Bool)
    (rnd : Nat → ℚ × ℚ) (i : Nat) (position : P) : P :=
  let s := springSum g.positions position (g.neighbours.getD i [])
  let current_velocity := g.velocities.getD i pd
  let f1 : P := (fadd s.1 (fmul (fneg current_velocity.1) DAMPING_COEFFICIENT),
                 fadd s.2 (fmul (fneg current_velocity.2) DAMPING_COEFFICIENT))
  let f2 : P := if gravity then (f1.1, fadd f1.2 (fmul GRAVITY MASS)) else f1
  if externalbool then
    (fadd f2.1 (fmul (some (rnd i).1) EXTERNAL_MAGNITUDE),
     fadd f2.2 (fmul (some (rnd i).2) EXTERNAL_MAGNITUDE))
  else f2

/-- One shared step implementation parameterized by the gravity flag (spec
§4.4); compared against the two duplicated source functions in claim C7. -/
def calcForcesParam (gravity : Bool) (g : Grid) (delta_t : F) (externalbool : Bool)
    (rnd : Nat → ℚ × ℚ) : Grid :=
  let new_positions :=
    (List.range g.positions.length).map (fun i =>
      let position := g.positions.getD i pd
      if g.fixed.getD i false then position
      else
        let current_velocity := g.velocities.getD i pd
        let tf := totalForceParam gravity g externalbool rnd i position
        let acceleration_x := fdiv tf.1 MASS
        let acceleration_y := fdiv tf.2 MASS
        (fadd (fadd position.1 (fmul current_velocity.1 delta_t))
              (fmul (fmul HALF acceleration_x) (fmul delta_t delta_t)),
         fadd (fadd position.2 (fmul current_velocity.2 delta_t))
              (fmul (fmul HALF acceleration_y) (fmul delta_t delta_t))))
  let new_velocities :=
    (List.range new_positions.length).map (fun i =>
      newVelocity g delta_t new_positions i)
  { g with positions := new_positions, velocities := new_velocities }

/-- One call to a step function: which variant, the timestep, the external
toggle, and the random samples consumed by that call. -/
structure StepCall where
  gravity : Bool
  delta_t : F
  externalbool : Bool
  rnd : Nat → ℚ × ℚ

/-- Dispatch one `StepCall` (as the scheduler's branch between the two step
functions). -/
def applyCall (g : Grid) (c : StepCall) : Grid :=
  if c.gravity then calculate_forces_with_gravity g c.delta_t c.externalbool c.rnd
  else calculate_forces g c.delta_t c.externalbool c.rnd

/-- Any number of consecutive step calls. -/
def runSteps (g : Grid) (cs : List StepCall) : Grid := cs.foldl applyCall g

/-- Well-formedness of a lattice: the per-node arrays agree in length (holds
for every grid the program builds; spec §3 array-length invariant). -/
def Grid.wf (g : Grid) : Prop :=
  g.velocities.length = g.positions.length ∧ g.fixed.length = g.positions.length

instance (g : Grid) : Decidable g.wf := inferInstanceAs (Decidable (_ ∧ _))

/-- One scheduler tick of `run_threaded` (`main.rs`): under the write hold it
loads the external toggle once into `current` (`extLoad 0`), then, when
`height < 100`, runs 20 sub-steps, loading the gravity toggle at the start of
each sub-step (`gravityLoad k` at sub-step `k`) to pick the step variant;
otherwise it runs a single sub-step.  `rnds k` is the random source consumed
by sub-step `k`. -/
def tick (g : Grid) (height : Nat) (delta_t : F) (gravityLoad : Nat → Bool)
    (extLoad : Nat → Bool) (rnds : Nat → Nat → ℚ × ℚ) : Grid :=
  let current := extLoad 0
  if height < 100 then
    (List.range 20).foldl (fun acc k =>
      if gravityLoad k then calculate_forces_with_gravity acc delta_t current (rnds k)
      else calculate_forces acc delta_t current (rnds k)) g
  else
    if gravityLoad 0 then calculate_forces_with_gravity g delta_t current (rnds 0)
    else calculate_forces g delta_t current (rnds 0)

/-! Basic facts about the `F` arithmetic. -/

@[simp]
theorem fadd_some (a b : ℚ) : fadd (some a) (some b) = some (a + b) := rfl

@[simp]
theorem fadd_none_left (b : F) : fadd none b = none := rfl

@[simp]
theorem fadd_none_right (a : F) : fadd a none = none := by cases a <;> rfl

@[simp]
theorem fsub_some (a b : ℚ) : fsub (some a) (some b) = some (a - b) := rfl

@[simp]
theorem fsub_none_left (b : F) : fsub none b = none := rfl

@[simp]
theorem fsub_none_right (a : F) : fsub a none = none := by cases a <;> rfl

@[simp]
theorem fmul_some (a b : ℚ) : fmul (some a) (some b) = some (a * b) := rfl

@[simp]
theorem fmul_none_left (b : F) : fmul none b = none := rfl

@[simp]
theorem fmul_none_right (a : F) : fmul a none = none := by cases a <;> rfl

@[simp]
theorem fneg_some (a : ℚ) : fneg (some a) = some (-a) := rfl

@[simp]
theorem fdiv_none_left (b : F) : fdiv none b = none := rfl

@[simp]
theorem fdiv_none_right (a : F) : fdiv a none = none := by cases a <;> rfl

theorem fdiv_some {b : ℚ} (a : ℚ) (h : b ≠ 0) : fdiv (some a) (some b) = some (a / b) := by
  simp [fdiv, h]

@[simp]
theorem fdiv_zero_den (a : F) : fdiv a (some 0) = none := by cases a <;> simp [fdiv]

theorem fadd_right_comm (a b c : F) : fadd (fadd a b) c = fadd (fadd a c) b := by
  cases a <;> cases b <;> cases c <;> simp [fadd, add_right_comm]

@[simp]
theorem fsqrt_zero : fsqrt (some 0) = some 0 := by
  simp [fsqrt, sqrtQ, Rat.num_ofNat, Rat.den_ofNat]

@[simp]
theorem fsqrt_one : fsqrt (some 1) = some 1 := by
  norm_num [fsqrt, sqrtQ, Rat.num_ofNat, Rat.den_ofNat]

/-! Basic facts about indexed maps. -/

theorem getD_range_map {α : Type} (n : Nat) (f : Nat → α) (d : α) (i : Nat)
    (h : i < n) : ((List.range n).map f).getD i d = f i := by
  rw [List.getD_eq_getElem?_getD, List.getElem?_map, List.getElem?_range h]
  rfl

@[simp]
theorem length_range_map {α : Type} (n : Nat) (f : Nat → α) :
    ((List.range n).map f).length = n := by simp

/-! Shape facts about the step functions. -/

theorem calculate_forces_width (g : Grid) (dt : F) (e : Bool) (r : Nat → ℚ × ℚ) :
    (calculate_forces g dt e r).width = g.width := rfl

theorem calculate_forces_fixed (g : Grid) (dt : F) (e : Bool) (r : Nat → ℚ × ℚ) :
    (calculate_forces g dt e r).fixed = g.fixed := rfl

theorem calculate_forces_neighbours (g : Grid) (dt : F) (e : Bool) (r : Nat → ℚ × ℚ) :
    (calculate_forces g dt e r).neighbours = g.neighbours := rfl

theorem calculate_forces_positions_length (g : Grid) (dt : F) (e : Bool)
    (r : Nat → ℚ × ℚ) :
    (calculate_forces g dt e r).positions.length = g.positions.length := by
  simp [calculate_forces]

theorem calculate_forces_velocities_length (g : Grid) (dt : F) (e : Bool)
    (r : Nat → ℚ × ℚ) :
    (calculate_forces g dt e r).velocities.length = g.positions.length := by
  simp [calculate_forces]

theorem calculate_forces_with_gravity_fixed (g : Grid) (dt : F) (e : Bool)
    (r : Nat → ℚ × ℚ) :
    (calculate_forces_with_gravity g dt e r).fixed = g.fixed := rfl

theorem calculate_forces_with_gravity_positions_length (g : Grid) (dt : F) (e : Bool)
    (r : Nat → ℚ × ℚ) :
    (calculate_forces_with_gravity g dt e r).positions.length = g.positions.length := by
  simp [calculate_forces_with_gravity]

theorem calculate_forces_with_gravity_velocities_length (g : Grid) (dt : F) (e : Bool)
    (r : Nat → ℚ × ℚ) :
    (calculate_forces_with_gravity g dt e r).velocities.length = g.positions.length := by
  simp [calculate_forces_with_gravity]

theorem calculate_forces_positions_getD (g : Grid) (dt : F) (e : Bool)
    (r : Nat → ℚ × ℚ) (i : Nat) (h : i < g.positions.length) :
    (calculate_forces g dt e r).positions.getD i pd =
      newPosition g dt e r i (g.positions.getD i pd) := by
  simp only [calculate_forces]
  exact getD_range_map _ _ _ _ h

theorem calculate_forces_velocities_getD (g : Grid) (dt : F) (e : Bool)
    (r : Nat → ℚ × ℚ) (i : Nat) (h : i < g.positions.length) :
    (calculate_forces g dt e r).velocities.getD i pd =
      newVelocity g dt
        ((List.range g.positions.length).map (fun j =>
          newPosition g dt e r j (g.positions.getD j pd))) i := by
  simp only [calculate_forces]
  rw [getD_range_map]
  simpa using h

theorem calculate_forces_with_gravity_positions_getD (g : Grid) (dt : F) (e : Bool)
    (r : Nat → ℚ × ℚ) (i : Nat) (h : i < g.positions.length) :
    (calculate_forces_with_gravity g dt e r).positions.getD i pd =
      newPositionGravity g dt e r i (g.positions.getD i pd) := by
  simp only [calculate_forces_with_gravity]
  exact getD_range_map _ _ _ _ h

theorem calculate_forces_with_gravity_velocities_getD (g : Grid) (dt : F) (e : Bool)
    (r : Nat → ℚ × ℚ) (i : Nat) (h : i < g.positions.length) :
    (calculate_forces_with_gravity g dt e r).velocities.getD i pd =
      newVelocity g dt
        ((List.range g.positions.length).map (fun j =>
          newPositionGravity g dt e r j (g.positions.getD j pd))) i := by
  simp only [calculate_forces_with_gravity]
  rw [getD_range_map]
  simpa using h

/-! Machinery for the neighbour-graph analysis (claim C6): the double loop of
`get_neighbors` writes each `neighborList` at its own linear index. -/

theorem getD_set_ne {α : Type} (l : List α) (i j : Nat) (a d : α) (h : i ≠ j) :
    (l.set i a).getD j d = l.getD j d := by
  rw [List.getD_eq_getElem?_getD, List.getD_eq_getElem?_getD, List.getElem?_set_ne h]

theorem getD_set_self {α : Type} (l : List α) (i : Nat) (a d : α) (h : i < l.length) :
    (l.set i a).getD i d = a := by
  rw [List.getD_eq_getElem?_getD, List.getElem?_set_self h]
  rfl

theorem foldl_set_length (l : List Nat) (v : Nat → List Nat) (acc : List (List Nat)) :
    (l.foldl (fun a i => a.set i (v i)) acc).length = acc.length := by
  induction l generalizing acc with
  | nil => rfl
  | cons i t ih => rw [List.foldl_cons, ih, List.length_set]

theorem foldl_set_getD (l : List Nat) (v : Nat → List Nat) (acc : List (List Nat))
    (j : Nat) :
    (l.foldl (fun a i => a.set i (v i)) acc).getD j [] =
      if j ∈ l ∧ j < acc.length then v j else acc.getD j [] := by
  induction l generalizing acc with
  | nil => simp
  | cons i t ih =>
    rw [List.foldl_cons, ih, List.length_set]
    by_cases hlen : j < acc.length
    · by_cases hmem : j ∈ t
      · rw [if_pos ⟨hmem, hlen⟩, if_pos ⟨List.mem_cons_of_mem i hmem, hlen⟩]
      · rw [if_neg (fun hc => hmem hc.1)]
        by_cases hij : j = i
        · subst hij
          rw [getD_set_self _ _ _ _ hlen, if_pos ⟨List.mem_cons_self j t, hlen⟩]
        · rw [getD_set_ne _ _ _ _ _ (fun he => hij he.symm)]
          rw [if_neg (fun hc => (List.mem_cons.mp hc.1).elim hij hmem)]
    · rw [if_neg (fun hc => hlen hc.2), if_neg (fun hc => hlen hc.2)]
      have hge : acc.length ≤ j := Nat.le_of_not_lt hlen
      rw [List.getD_eq_default _ _ (by simpa using hge), List.getD_eq_default _ _ hge]

theorem foldl_foldl_flat {α β γ : Type} (outer : List β) (inner : List γ)
    (f : α → β → γ → α) (acc : α) :
    outer.foldl (fun a x => inner.foldl (fun b y => f b x y) a) acc =
      (outer.flatMap (fun x => inner.map (fun y => (x, y)))).foldl
        (fun a p => f a p.1 p.2) acc := by
  induction outer generalizing acc with
  | nil => rfl
  | cons x t ih =>
    rw [List.foldl_cons, List.flatMap_cons, List.foldl_append, List.foldl_map]
    exact ih _

theorem foldl_congr_mem {α β : Type} (l : List β) (f g : α → β → α) (acc : α)
    (h : ∀ a x, x ∈ l → f a x = g a x) :
    l.foldl f acc = l.foldl g acc := by
  induction l generalizing acc with
  | nil => rfl
  | cons x t ih =>
    rw [List.foldl_cons, List.foldl_cons, h acc x (by simp)]
    exact ih _ (fun a y hy => h a y (by simp [hy]))

theorem idx_div {y h : Nat} (x : Nat) (hy : y < h) : (x * h + y) / h = x := by
  have hp : 0 < h := Nat.lt_of_le_of_lt (Nat.zero_le y) hy
  rw [Nat.mul_comm, Nat.mul_add_div hp, Nat.div_eq_of_lt hy]
  omega

theorem idx_mod {y h : Nat} (x : Nat) (hy : y < h) : (x * h + y) % h = y := by
  rw [Nat.mul_comm, Nat.mul_add_mod]
  exact Nat.mod_eq_of_lt hy

theorem idx_lt {x y w h : Nat} (hx : x < w) (hy : y < h) : x * h + y < w * h := by
  calc x * h + y < x * h + h := by omega
  _ = (x + 1) * h := by ring
  _ ≤ w * h := Nat.mul_le_mul (by omega) (Nat.le_refl h)

theorem idx_inj {x y x2 y2 h : Nat} (hy : y < h) (hy2 : y2 < h)
    (he : x * h + y = x2 * h + y2) : x = x2 ∧ y = y2 := by
  have d1 : (x * h + y) / h = x := idx_div x hy
  have d2 : (x2 * h + y2) / h = x2 := idx_div x2 hy2
  rw [he] at d1
  have hx : x = x2 := d1.symm.trans d2
  subst hx
  exact ⟨rfl, by omega⟩

theorem get_neighbors_getD (g : Grid) (x y : Nat) (hx : x < g.width)
    (hy : y < g.height) (hlen : g.neighbours.length = g.width * g.height) :
    g.get_neighbors.neighbours.getD (x * g.height + y) [] = neighborList g x y := by
  have e1 : (List.range g.width).foldl (fun accx x2 =>
        (List.range g.height).foldl (fun accy y2 =>
          accy.set (g.get_index x2 y2) (neighborList g x2 y2)) accx) g.neighbours =
      ((List.range g.width).flatMap (fun x2 =>
        (List.range g.height).map (fun y2 => (x2, y2)))).foldl
        (fun a p => a.set (g.get_index p.1 p.2) (neighborList g p.1 p.2)) g.neighbours :=
    foldl_foldl_flat (List.range g.width) (List.range g.height)
      (fun a x2 y2 => a.set (g.get_index x2 y2) (neighborList g x2 y2)) g.neighbours
  have e2 : ((List.range g.width).flatMap (fun x2 =>
        (List.range g.height).map (fun y2 => (x2, y2)))).foldl
        (fun a p => a.set (g.get_index p.1 p.2) (neighborList g p.1 p.2)) g.neighbours =
      ((List.range g.width).flatMap (fun x2 =>
        (List.range g.height).map (fun y2 => (x2, y2)))).foldl
        (fun a p => a.set (p.1 * g.height + p.2)
          (neighborList g ((p.1 * g.height + p.2) / g.height)
            ((p.1 * g.height + p.2) % g.height))) g.neighbours := by
    apply foldl_congr_mem
    intro a p hp
    rcases List.mem_flatMap.mp hp with ⟨x2, hx2, hp2⟩
    rcases List.mem_map.mp hp2 with ⟨y2, hy2, he⟩
    subst he
    have hy2h : y2 < g.height := List.mem_range.mp hy2
    simp only [Grid.get_index, idx_div x2 hy2h, idx_mod x2 hy2h]
  have e3 : ((List.range g.width).flatMap (fun x2 =>
        (List.range g.height).map (fun y2 => (x2, y2)))).foldl
        (fun a p => a.set (p.1 * g.height + p.2)
          (neighborList g ((p.1 * g.height + p.2) / g.height)
            ((p.1 * g.height + p.2) % g.height))) g.neighbours =
      (((List.range g.width).flatMap (fun x2 =>
        (List.range g.height).map (fun y2 => (x2, y2)))).map
          (fun p => p.1 * g.height + p.2)).foldl
        (fun a i => a.set i (neighborList g (i / g.height) (i % g.height)))
        g.neighbours :=
    (List.foldl_map (fun p : Nat × Nat => p.1 * g.height + p.2)
      (fun a i => a.set i (neighborList g (i / g.height) (i % g.height)))
      ((List.range g.width).flatMap (fun x2 =>
        (List.range g.height).map (fun y2 => (x2, y2)))) g.neighbours).symm
  have hmem : x * g.height + y ∈
      (((List.range g.width).flatMap (fun x2 =>
        (List.range g.height).map (fun y2 => (x2, y2)))).map
          (fun p => p.1 * g.height + p.2)) := by
    apply List.mem_map.mpr
    refine ⟨(x, y), ?_, rfl⟩
    apply List.mem_flatMap.mpr
    exact ⟨x, List.mem_range.mpr hx, List.mem_map.mpr ⟨y, List.mem_range.mpr hy, rfl⟩⟩
  show ((List.range g.width).foldl (fun accx x2 =>
        (List.range g.height).foldl (fun accy y2 =>
          accy.set (g.get_index x2 y2) (neighborList g x2 y2)) accx)
        g.neighbours).getD (x * g.height + y) [] = _
  rw [e1, e2, e3, foldl_set_getD]
  rw [if_pos ⟨hmem, by rw [hlen]; exact idx_lt hx hy⟩]
  rw [idx_div x hy, idx_mod x hy]

theorem mem_ite_singleton {c : Prop} [Decidable c] (a j : Nat) :
    (j ∈ if c then [a] else ([] : List Nat)) ↔ c ∧ j = a := by
  split_ifs with hc <;> simp [hc]

theorem mem_neighborList (g : Grid) (x y j : Nat) (hx : x < g.width)
    (hy : y < g.height) :
    j ∈ neighborList g x y ↔
      (x + 1 < g.width ∧ j = (x + 1) * g.height + y) ∨
      (0 < x ∧ j = (x - 1) * g.height + y) ∨
      (y + 1 < g.height ∧ j = x * g.height + (y + 1)) ∨
      (0 < y ∧ j = x * g.height + (y - 1)) := by
  have e1 : (x ≠ g.width - 1) ↔ (x + 1 < g.width) := by omega
  have e2 : (x ≠ 0) ↔ (0 < x) := by omega
  have e3 : (y ≠ g.height - 1) ↔ (y + 1 < g.height) := by omega
  have e4 : (y ≠ 0) ↔ (0 < y) := by omega
  simp only [neighborList, Grid.get_index, e1, e2, e3, e4, List.mem_append,
    mem_ite_singleton, or_assoc]

theorem length_neighborList (g : Grid) (x y : Nat) (hx : x < g.width)
    (hy : y < g.height) :
    (neighborList g x y).length =
      (if x + 1 < g.width then 1 else 0) + (if 0 < x then 1 else 0) +
      (if y + 1 < g.height then 1 else 0) + (if 0 < y then 1 else 0) := by
  have e1 : (x ≠ g.width - 1) ↔ (x + 1 < g.width) := by omega
  have e2 : (x ≠ 0) ↔ (0 < x) := by omega
  have e3 : (y ≠ g.height - 1) ↔ (y + 1 < g.height) := by omega
  have e4 : (y ≠ 0) ↔ (0 < y) := by omega
  simp only [neighborList, e1, e2, e3, e4, List.length_append, apply_ite List.length,
    List.length_singleton, List.length_nil]

/-- Adjacency list of node `i` after `get_neighbors` runs on a fresh
`width x height` lattice. -/
def nbrsOf (w h i : Nat) : List Nat :=
  (Grid.new w h).get_neighbors.neighbours.getD i []

theorem nbrsOf_eq (w h x y : Nat) (hx : x < w) (hy : y < h) :
    nbrsOf w h (x * h + y) = neighborList (Grid.new w h) x y := by
  apply get_neighbors_getD (Grid.new w h) x y hx hy
  simp [Grid.new]

/-! Fixed-node behaviour of one step (claims C1, C2). -/

theorem newPosition_of_fixed (g : Grid) (dt : F) (e : Bool) (r : Nat → ℚ × ℚ)
    (i : Nat) (p : P) (h : g.fixed.getD i false = true) :
    newPosition g dt e r i p = p := by
  simp only [newPosition]
  rw [if_pos h]

theorem newPositionGravity_of_fixed (g : Grid) (dt : F) (e : Bool) (r : Nat → ℚ × ℚ)
    (i : Nat) (p : P) (h : g.fixed.getD i false = true) :
    newPositionGravity g dt e r i p = p := by
  simp only [newPositionGravity]
  rw [if_pos h]

theorem newVelocity_of_fixed (g : Grid) (dt : F) (nps : List P) (i : Nat)
    (h : g.fixed.getD i false = true) :
    newVelocity g dt nps i = g.velocities.getD i pd := by
  simp only [newVelocity]
  rw [if_pos h]

theorem fixed_index_lt (g : Grid) (i : Nat) (h : g.fixed.getD i false = true) :
    i < g.fixed.length := by
  by_contra hc
  rw [List.getD_eq_default _ _ (Nat.le_of_not_lt hc)] at h
  exact Bool.false_ne_true h

theorem applyCall_preserves_fixed_node (g : Grid) (c : StepCall) (i : Nat)
    (hwf : g.wf) (h : g.fixed.getD i false = true) :
    (applyCall g c).positions.getD i pd = g.positions.getD i pd ∧
    (applyCall g c).velocities.getD i pd = g.velocities.getD i pd ∧
    (applyCall g c).fixed = g.fixed ∧ (applyCall g c).wf := by
  have hi : i < g.positions.length := by
    have h1 := fixed_index_lt g i h
    have h2 := hwf.2
    omega
  cases c with
  | mk gr dt e r =>
    cases gr with
    | false =>
      refine ⟨?_, ?_, rfl, ?_⟩
      · rw [show applyCall g ⟨false, dt, e, r⟩ = calculate_forces g dt e r from rfl]
        rw [calculate_forces_positions_getD g dt e r i hi]
        exact newPosition_of_fixed g dt e r i _ h
      · rw [show applyCall g ⟨false, dt, e, r⟩ = calculate_forces g dt e r from rfl]
        rw [calculate_forces_velocities_getD g dt e r i hi]
        exact newVelocity_of_fixed g dt _ i h
      · constructor
        · rw [show applyCall g ⟨false, dt, e, r⟩ = calculate_forces g dt e r from rfl,
            calculate_forces_velocities_length, calculate_forces_positions_length]
        · rw [show applyCall g ⟨false, dt, e, r⟩ = calculate_forces g dt e r from rfl,
            calculate_forces_positions_length]
          rw [show (calculate_forces g dt e r).fixed = g.fixed from rfl]
          exact hwf.2
    | true =>
      refine ⟨?_, ?_, rfl, ?_⟩
      · rw [show applyCall g ⟨true, dt, e, r⟩ = calculate_forces_with_gravity g dt e r from rfl]
        rw [calculate_forces_with_gravity_positions_getD g dt e r i hi]
        exact newPositionGravity_of_fixed g dt e r i _ h
      · rw [show applyCall g ⟨true, dt, e, r⟩ = calculate_forces_with_gravity g dt e r from rfl]
        rw [calculate_forces_with_gravity_velocities_getD g dt e r i hi]
        exact newVelocity_of_fixed g dt _ i h
      · constructor
        · rw [show applyCall g ⟨true, dt, e, r⟩ = calculate_forces_with_gravity g dt e r from rfl,
            calculate_forces_with_gravity_velocities_length,
            calculate_forces_with_gravity_positions_length]
        · rw [show applyCall g ⟨true, dt, e, r⟩ = calculate_forces_with_gravity g dt e r from rfl,
            calculate_forces_with_gravity_positions_length]
          rw [show (calculate_forces_with_gravity g dt e r).fixed = g.fixed from rfl]
          exact hwf.2

/-! Componentwise velocity identity (claim C2). -/

theorem vel_delta_some (px v d : ℚ) (a : F) (hd : d ≠ 0) :
    fdiv (fsub (fadd (fadd (some px) (fmul (some v) (some d)))
      (fmul (fmul HALF a) (fmul (some d) (some d)))) (some px)) (some d) =
    fadd (some v) (fmul (fmul HALF a) (some d)) := by
  cases a with
  | none => simp [HALF]
  | some a0 =>
    simp only [HALF, fmul_some, fadd_some, fsub_some]
    rw [fdiv_some _ hd]
    congr 1
    field_simp
    ring

theorem vel_delta_none (px d : ℚ) (a : F) :
    fdiv (fsub (fadd (fadd (some px) (fmul none (some d)))
      (fmul (fmul HALF a) (fmul (some d) (some d)))) (some px)) (some d) =
    fadd none (fmul (fmul HALF a) (some d)) := by
  simp

/-! Non-finite propagation through the spring loop (claim C4). -/

theorem springBody_absorb (positions : List P) (p : P) (j : Nat) :
    springBody positions p ((none : F), (none : F)) j = ((none : F), (none : F)) := by
  simp [springBody]

theorem foldl_springBody_absorb (positions : List P) (p : P) (nbrs : List Nat) :
    nbrs.foldl (springBody positions p) ((none : F), (none : F)) =
      ((none : F), (none : F)) := by
  induction nbrs with
  | nil => rfl
  | cons j t ih => rw [List.foldl_cons, springBody_absorb]; exact ih

theorem springBody_coincident (positions : List P) (px py : ℚ) (acc : P) (j : Nat)
    (hpj : positions.getD j pd = (some px, some py)) :
    springBody positions ((some px : F), (some py : F)) acc j =
      ((none : F), (none : F)) := by
  simp only [springBody]
  rw [hpj]
  simp [sub_self]

theorem springSum_coincident (positions : List P) (px py : ℚ) (nbrs : List Nat)
    (j : Nat) (hj : j ∈ nbrs) (hpj : positions.getD j pd = (some px, some py)) :
    springSum positions ((some px : F), (some py : F)) nbrs =
      ((none : F), (none : F)) := by
  rcases List.append_of_mem hj with ⟨l1, l2, he⟩
  subst he
  rw [springSum, List.foldl_append, List.foldl_cons]
  rw [springBody_coincident positions px py _ j hpj]
  exact foldl_springBody_absorb positions _ l2

/-! Concrete evaluation helpers. -/

theorem pair_eq {a b c d : F} (h1 : a = c) (h2 : b = d) :
    ((a, b) : P) = (c, d) := by rw [h1, h2]

theorem g8_eq : (Grid.new 2 1).get_neighbors =
    ⟨2, 1, [((some (-1) : F), (some 10 : F)), ((some 0 : F), (some 10 : F))],
      [((some 0 : F), (some 0 : F)), ((some 0 : F), (some 0 : F))],
      [false, false], [[1], [0]]⟩ := by
  simp [Grid.new, Grid.get_neighbors, neighborList, Grid.get_index, List.range_succ]

theorem step_mk1_gravity (w h : Nat) (p v : ℚ) (r : Nat → ℚ × ℚ) :
    calculate_forces_with_gravity
      ⟨w, h, [((some 0 : F), (some p : F))], [((some 0 : F), (some v : F))],
        [false], [[]]⟩ (some 1) false r =
    ⟨w, h, [((some 0 : F), (some (p - v / 2 - 981 / 200) : F))],
      [((some 0 : F), (some (-(v / 2) - 981 / 200) : F))], [false], [[]]⟩ := by
  simp [calculate_forces_with_gravity, newPositionGravity, newVelocity,
    totalForceGravity, springSum, fdiv, GRAVITY, MASS, DAMPING_COEFFICIENT, HALF,
    pd, List.range_succ]
  norm_num
  constructor <;> ring

theorem step_mk1_nogravity (w h : Nat) (p v : ℚ) (r : Nat → ℚ × ℚ) :
    calculate_forces
      ⟨w, h, [((some 0 : F), (some p : F))], [((some 0 : F), (some v : F))],
        [false], [[]]⟩ (some 1) false r =
    ⟨w, h, [((some 0 : F), (some (p - v / 2) : F))],
      [((some 0 : F), (some (-(v / 2)) : F))], [false], [[]]⟩ := by
  simp [calculate_forces, newPosition, newVelocity,
    totalForce, springSum, fdiv, MASS, DAMPING_COEFFICIENT, HALF,
    pd, List.range_succ]
  norm_num
  constructor <;> ring

/-! The claims. -/

/-- C1: for every lattice, every node `i` with `fixed[i] = true`, every
timestep, and every combination of the gravity and external toggles, after
any number of step calls (`calculate_forces` or
`calculate_forces_with_gravity`) the position and velocity of node `i` are
exactly their values at the time the node was marked fixed. -/
theorem c1_fixed_node_invariance (g : Grid) (cs : List StepCall) (i : Nat)
    (hwf : g.wf) (h : g.fixed.getD i false = true) :
    (runSteps g cs).positions.getD i pd = g.positions.getD i pd ∧
    (runSteps g cs).velocities.getD i pd = g.velocities.getD i pd := by
  induction cs generalizing g with
  | nil => exact ⟨rfl, rfl⟩
  | cons c t ih =>
    obtain ⟨hp, hv, hf, hw⟩ := applyCall_preserves_fixed_node g c i hwf h
    have h2 : (applyCall g c).fixed.getD i false = true := by rw [hf]; exact h
    have ht := ih (applyCall g c) hw h2
    exact ⟨ht.1.trans hp, ht.2.trans hv⟩

/-- Witness for C1 at a concrete one-node lattice whose node is fixed, under
one gravity step. -/
theorem c1_fixed_node_invariance_witness :
    (⟨1, 1, [((some 0 : F), (some 10 : F))], [((some 0 : F), (some 0 : F))],
      [true], [[]]⟩ : Grid).wf ∧
    (⟨1, 1, [((some 0 : F), (some 10 : F))], [((some 0 : F), (some 0 : F))],
      [true], [[]]⟩ : Grid).fixed.getD 0 false = true ∧
    ((runSteps ⟨1, 1, [((some 0 : F), (some 10 : F))],
        [((some 0 : F), (some 0 : F))], [true], [[]]⟩
        [⟨true, some 1, false, fun _ => (0, 0)⟩]).positions.getD 0 pd =
      (⟨1, 1, [((some 0 : F), (some 10 : F))], [((some 0 : F), (some 0 : F))],
        [true], [[]]⟩ : Grid).positions.getD 0 pd ∧
     (runSteps ⟨1, 1, [((some 0 : F), (some 10 : F))],
        [((some 0 : F), (some 0 : F))], [true], [[]]⟩
        [⟨true, some 1, false, fun _ => (0, 0)⟩]).velocities.getD 0 pd =
      (⟨1, 1, [((some 0 : F), (some 10 : F))], [((some 0 : F), (some 0 : F))],
        [true], [[]]⟩ : Grid).velocities.getD 0 pd) :=
  ⟨⟨rfl, rfl⟩, rfl,
    c1_fixed_node_invariance _ [⟨true, some 1, false, fun _ => (0, 0)⟩] 0
      ⟨rfl, rfl⟩ rfl⟩

/-- C2: for every free node `i` with a finite position and every timestep
`d > 0`, after one step (either variant) the new velocity equals
`(new_position - old_position) / dt` componentwise, and this equals
`old_velocity + 0.5 * acceleration * dt` with `acceleration` the net force
from the pre-step snapshot divided by `MASS`. -/
theorem c2_velocity_delta_identity (g : Grid) (d : ℚ) (e : Bool)
    (r : Nat → ℚ × ℚ) (i : Nat) (px py : ℚ) (hd : 0 < d)
    (hfree : g.fixed.getD i false = false)
    (hpos : g.positions.getD i pd = (some px, some py)) :
    ((calculate_forces g (some d) e r).velocities.getD i pd =
      (fdiv (fsub ((calculate_forces g (some d) e r).positions.getD i pd).1
        (some px)) (some d),
       fdiv (fsub ((calculate_forces g (some d) e r).positions.getD i pd).2
        (some py)) (some d)) ∧
     (calculate_forces g (some d) e r).velocities.getD i pd =
      (fadd (g.velocities.getD i pd).1
        (fmul (fmul HALF (fdiv (totalForce g e r i (g.positions.getD i pd)).1 MASS))
          (some d)),
       fadd (g.velocities.getD i pd).2
        (fmul (fmul HALF (fdiv (totalForce g e r i (g.positions.getD i pd)).2 MASS))
          (some d)))) ∧
    ((calculate_forces_with_gravity g (some d) e r).velocities.getD i pd =
      (fdiv (fsub ((calculate_forces_with_gravity g (some d) e r).positions.getD i pd).1
        (some px)) (some d),
       fdiv (fsub ((calculate_forces_with_gravity g (some d) e r).positions.getD i pd).2
        (some py)) (some d)) ∧
     (calculate_forces_with_gravity g (some d) e r).velocities.getD i pd =
      (fadd (g.velocities.getD i pd).1
        (fmul (fmul HALF (fdiv (totalForceGravity g e r i (g.positions.getD i pd)).1 MASS))
          (some d)),
       fadd (g.velocities.getD i pd).2
        (fmul (fmul HALF (fdiv (totalForceGravity g e r i (g.positions.getD i pd)).2 MASS))
          (some d)))) := by
  have hdne : d ≠ 0 := ne_of_gt hd
  have hi : i < g.positions.length := by
    by_contra hc
    rw [List.getD_eq_default _ _ (Nat.le_of_not_lt hc)] at hpos
    simp [pd] at hpos
  have hv := calculate_forces_velocities_getD g (some d) e r i hi
  simp only [newVelocity, hfree, Bool.false_eq_true, if_false] at hv
  rw [getD_range_map _ _ _ _ hi] at hv
  rw [hpos] at hv
  have hvg := calculate_forces_with_gravity_velocities_getD g (some d) e r i hi
  simp only [newVelocity, hfree, Bool.false_eq_true, if_false] at hvg
  rw [getD_range_map _ _ _ _ hi] at hvg
  rw [hpos] at hvg
  refine ⟨⟨?_, ?_⟩, ?_, ?_⟩
  · rw [hv, calculate_forces_positions_getD _ _ _ _ _ hi, hpos]
  · rw [hv, hpos]
    simp only [newPosition, hfree, Bool.false_eq_true, if_false]
    cases hcv1 : (g.velocities.getD i pd).1 with
    | none =>
      cases hcv2 : (g.velocities.getD i pd).2 with
      | none => exact pair_eq (vel_delta_none px d _) (vel_delta_none py d _)
      | some v2 =>
        exact pair_eq (vel_delta_none px d _) (vel_delta_some py v2 d _ hdne)
    | some v1 =>
      cases hcv2 : (g.velocities.getD i pd).2 with
      | none =>
        exact pair_eq (vel_delta_some px v1 d _ hdne) (vel_delta_none py d _)
      | some v2 =>
        exact pair_eq (vel_delta_some px v1 d _ hdne) (vel_delta_some py v2 d _ hdne)
  · rw [hvg, calculate_forces_with_gravity_positions_getD _ _ _ _ _ hi, hpos]
  · rw [hvg, hpos]
    simp only [newPositionGravity, hfree, Bool.false_eq_true, if_false]
    cases hcv1 : (g.velocities.getD i pd).1 with
    | none =>
      cases hcv2 : (g.velocities.getD i pd).2 with
      | none => exact pair_eq (vel_delta_none px d _) (vel_delta_none py d _)
      | some v2 =>
        exact pair_eq (vel_delta_none px d _) (vel_delta_some py v2 d _ hdne)
    | some v1 =>
      cases hcv2 : (g.velocities.getD i pd).2 with
      | none =>
        exact pair_eq (vel_delta_some px v1 d _ hdne) (vel_delta_none py d _)
      | some v2 =>
        exact pair_eq (vel_delta_some px v1 d _ hdne) (vel_delta_some py v2 d _ hdne)

/-- Witness for C2 at a concrete free one-node lattice with `dt = 1`. -/
theorem c2_velocity_delta_identity_witness : (0 : ℚ) < 1 ∧
    (calculate_forces ⟨1, 1, [((some 5 : F), (some 7 : F))],
        [((some 1 : F), (some 2 : F))], [false], [[]]⟩ (some 1) false
        (fun _ => (0, 0))).velocities.getD 0 pd =
      (fdiv (fsub ((calculate_forces ⟨1, 1, [((some 5 : F), (some 7 : F))],
          [((some 1 : F), (some 2 : F))], [false], [[]]⟩ (some 1) false
          (fun _ => (0, 0))).positions.getD 0 pd).1 (some 5)) (some 1),
       fdiv (fsub ((calculate_forces ⟨1, 1, [((some 5 : F), (some 7 : F))],
          [((some 1 : F), (some 2 : F))], [false], [[]]⟩ (some 1) false
          (fun _ => (0, 0))).positions.getD 0 pd).2 (some 7)) (some 1)) :=
  ⟨by norm_num,
    (c2_velocity_delta_identity ⟨1, 1, [((some 5 : F), (some 7 : F))],
      [((some 1 : F), (some 2 : F))], [false], [[]]⟩ 1 false (fun _ => (0, 0))
      0 5 7 (by norm_num) rfl rfl).1.1⟩

/-- C3: with the external toggle off, each step function is a deterministic
function of the snapshot and timestep: its result does not depend on the
random source at all (and, the parallel per-node maps being embedded as pure
maps, it is the same for every schedule of the parallel map). -/
theorem c3_determinism_external_off (g : Grid) (dt : F)
    (rnd1 rnd2 : Nat → ℚ × ℚ) :
    calculate_forces g dt false rnd1 = calculate_forces g dt false rnd2 ∧
    calculate_forces_with_gravity g dt false rnd1 =
      calculate_forces_with_gravity g dt false rnd2 :=
  ⟨rfl, rfl⟩

/-- C4 counterexample: a lattice with two coincident connected nodes (both at
the origin, distance 0) is NOT handled: one step writes a non-finite value
(modelled `none`) into the positions array, refuting the claim that the
degenerate case is explicitly handled and never produces a non-finite
value. -/
theorem c4_counterexample :
    (calculate_forces
      ⟨2, 1, [((some 0 : F), (some 0 : F)), ((some 0 : F), (some 0 : F))],
        [((some 0 : F), (some 0 : F)), ((some 0 : F), (some 0 : F))],
        [false, false], [[1], [0]]⟩ (some 1) false
      (fun _ => (0, 0))).positions.getD 0 pd = ((none : F), (none : F)) := by
  rw [calculate_forces_positions_getD _ _ _ _ 0 (by norm_num)]
  simp only [newPosition]
  rw [if_neg (by simp)]
  have hs : springSum
      [((some 0 : F), (some 0 : F)), ((some 0 : F), (some 0 : F))]
      ((some 0 : F), (some 0 : F)) [1] = ((none : F), (none : F)) :=
    springSum_coincident _ 0 0 [1] 1 (by simp) rfl
  simp only [totalForce]
  simp [hs]

/-- C4 amended: coincident connected nodes are not explicitly handled; the
spring term divides by the zero distance and one step silently writes a
non-finite value into the position of every free node that has a coincident
neighbour. -/
theorem c4_coincident_nodes_nan (g : Grid) (dt : F) (e : Bool)
    (r : Nat → ℚ × ℚ) (i j : Nat) (px py : ℚ)
    (hfree : g.fixed.getD i false = false)
    (hj : j ∈ g.neighbours.getD i [])
    (hpi : g.positions.getD i pd = (some px, some py))
    (hpj : g.positions.getD j pd = (some px, some py)) :
    (calculate_forces g dt e r).positions.getD i pd = ((none : F), (none : F)) := by
  have hi : i < g.positions.length := by
    by_contra hc
    rw [List.getD_eq_default _ _ (Nat.le_of_not_lt hc)] at hpi
    simp [pd] at hpi
  rw [calculate_forces_positions_getD _ _ _ _ _ hi]
  simp only [newPosition, hfree, Bool.false_eq_true, if_false]
  rw [hpi]
  have hs : springSum g.positions ((some px : F), (some py : F))
      (g.neighbours.getD i []) = ((none : F), (none : F)) :=
    springSum_coincident g.positions px py _ j hj hpj
  simp only [totalForce, hs]
  cases e <;> simp

/-- Witness for C4 (amended) at the concrete coincident lattice, with the
external toggle on. -/
theorem c4_coincident_nodes_nan_witness :
    1 ∈ (⟨2, 1, [((some 0 : F), (some 0 : F)), ((some 0 : F), (some 0 : F))],
        [((some 0 : F), (some 0 : F)), ((some 0 : F), (some 0 : F))],
        [false, false], [[1], [0]]⟩ : Grid).neighbours.getD 0 [] ∧
    (calculate_forces
      ⟨2, 1, [((some 0 : F), (some 0 : F)), ((some 0 : F), (some 0 : F))],
        [((some 0 : F), (some 0 : F)), ((some 0 : F), (some 0 : F))],
        [false, false], [[1], [0]]⟩ (some 1) true
      (fun _ => (0, 0))).positions.getD 0 pd = ((none : F), (none : F)) :=
  ⟨by decide,
    c4_coincident_nodes_nan _ (some 1) true (fun _ => (0, 0)) 0 1 0 0
      rfl (by decide) rfl rfl⟩

/-- C5 counterexample: constructing a lattice with `width = 0` does not fail;
`Grid::new` returns a (degenerate, zero-node) lattice. -/
theorem c5_counterexample :
    Grid.new 0 5 = ⟨0, 5, [], [], [], []⟩ ∧
    (Grid.new 0 5).positions.length = 0 :=
  ⟨rfl, rfl⟩

/-- C5 amended: construction with `width = 0` or `height = 0` succeeds and
returns a lattice with the requested dimensions and zero nodes (all per-node
arrays empty); nothing rejects or disallows it. -/
theorem c5_zero_dimension_succeeds (w h : Nat) (hz : w = 0 ∨ h = 0) :
    (Grid.new w h).positions = [] ∧ (Grid.new w h).velocities = [] ∧
    (Grid.new w h).fixed = [] ∧ (Grid.new w h).neighbours = [] ∧
    (Grid.new w h).width = w ∧ (Grid.new w h).height = h := by
  rcases hz with hz | hz <;> subst hz <;> simp [Grid.new]

/-- Witness for C5 (amended) at `width = 0`, `height = 5`. -/
theorem c5_zero_dimension_succeeds_witness : ((0 : Nat) = 0 ∨ (5 : Nat) = 0) ∧
    ((Grid.new 0 5).positions = [] ∧ (Grid.new 0 5).velocities = [] ∧
     (Grid.new 0 5).fixed = [] ∧ (Grid.new 0 5).neighbours = [] ∧
     (Grid.new 0 5).width = 0 ∧ (Grid.new 0 5).height = 5) :=
  ⟨Or.inl rfl, c5_zero_dimension_succeeds 0 5 (Or.inl rfl)⟩

/-- C6: after `get_neighbors` on a fresh `w x h` lattice, the adjacency of
node `(x, y)` holds exactly the indices of the in-bounds nodes among
`(x+1,y)`, `(x-1,y)`, `(x,y+1)`, `(x,y-1)`; adjacency is symmetric; for
`w, h >= 2` corner nodes have degree 2, other edge nodes 3, interior nodes 4;
and a 1 x 1 lattice's single node has degree 0. -/
theorem c6_neighbor_graph :
    (∀ w h x y j, x < w → y < h →
      (j ∈ nbrsOf w h (x * h + y) ↔
        (x + 1 < w ∧ j = (x + 1) * h + y) ∨ (0 < x ∧ j = (x - 1) * h + y) ∨
        (y + 1 < h ∧ j = x * h + (y + 1)) ∨ (0 < y ∧ j = x * h + (y - 1)))) ∧
    (∀ w h x y x2 y2, x < w → y < h → x2 < w → y2 < h →
      (x2 * h + y2 ∈ nbrsOf w h (x * h + y) ↔
       x * h + y ∈ nbrsOf w h (x2 * h + y2))) ∧
    (∀ w h x y, 2 ≤ w → 2 ≤ h → x < w → y < h →
      (nbrsOf w h (x * h + y)).length =
        if (x = 0 ∨ x = w - 1) ∧ (y = 0 ∨ y = h - 1) then 2
        else if x = 0 ∨ x = w - 1 ∨ y = 0 ∨ y = h - 1 then 3 else 4) ∧
    (nbrsOf 1 1 0).length = 0 := by
  have hmem : ∀ w h x y j, x < w → y < h →
      (j ∈ nbrsOf w h (x * h + y) ↔
        (x + 1 < w ∧ j = (x + 1) * h + y) ∨ (0 < x ∧ j = (x - 1) * h + y) ∨
        (y + 1 < h ∧ j = x * h + (y + 1)) ∨ (0 < y ∧ j = x * h + (y - 1))) := by
    intro w h x y j hx hy
    rw [nbrsOf_eq w h x y hx hy]
    exact mem_neighborList (Grid.new w h) x y j hx hy
  refine ⟨hmem, ?_, ?_, ?_⟩
  · intro w h x y x2 y2 hx hy hx2 hy2
    rw [hmem w h x y _ hx hy, hmem w h x2 y2 _ hx2 hy2]
    have conv : ∀ a b a2 b2 : Nat, b < h → b2 < h →
        ((a * h + b = a2 * h + b2) ↔ (a = a2 ∧ b = b2)) := by
      intro a b a2 b2 hb hb2
      constructor
      · exact fun he => idx_inj hb hb2 he
      · rintro ⟨e1, e2⟩
        rw [e1, e2]
    rw [conv x2 y2 (x + 1) y hy2 hy, conv x2 y2 (x - 1) y hy2 hy,
      and_congr_right (fun hc => conv x2 y2 x (y + 1) hy2 hc),
      conv x2 y2 x (y - 1) hy2 (by omega),
      conv x y (x2 + 1) y2 hy hy2, conv x y (x2 - 1) y2 hy hy2,
      and_congr_right (fun hc => conv x y x2 (y2 + 1) hy hc),
      conv x y x2 (y2 - 1) hy (by omega)]
    omega
  · intro w h x y h2w h2h hx hy
    rw [nbrsOf_eq w h x y hx hy, length_neighborList (Grid.new w h) x y hx hy]
    have hw : (Grid.new w h).width = w := rfl
    have hh2 : (Grid.new w h).height = h := rfl
    rw [hw, hh2]
    split_ifs <;> omega
  · rfl

/-- Witness for C6 on a 3 x 3 lattice at the interior node `(1, 1)` (index
`1 * 3 + 1 = 4`), plus the 1 x 1 degree fact. -/
theorem c6_neighbor_graph_witness :
    ((5 ∈ nbrsOf 3 3 (1 * 3 + 1)) ↔
      (1 + 1 < 3 ∧ 5 = (1 + 1) * 3 + 1) ∨ (0 < 1 ∧ 5 = (1 - 1) * 3 + 1) ∨
      (1 + 1 < 3 ∧ 5 = 1 * 3 + (1 + 1)) ∨ (0 < 1 ∧ 5 = 1 * 3 + (1 - 1))) ∧
    ((1 * 3 + 2 ∈ nbrsOf 3 3 (1 * 3 + 1)) ↔
     (1 * 3 + 1 ∈ nbrsOf 3 3 (1 * 3 + 2))) ∧
    (nbrsOf 3 3 (1 * 3 + 1)).length = 4 ∧ (nbrsOf 1 1 0).length = 0 := by
  refine ⟨c6_neighbor_graph.1 3 3 1 1 5 (by decide) (by decide),
    c6_neighbor_graph.2.1 3 3 1 1 1 2 (by decide) (by decide) (by decide)
      (by decide), ?_, c6_neighbor_graph.2.2.2⟩
  have h3 := c6_neighbor_graph.2.2.1 3 3 1 1 (by decide) (by decide) (by decide)
    (by decide)
  simpa using h3

/-- C7: the gravity-on step equals the gravity-off step except that the
constant force `GRAVITY * MASS` is added to each node's net-force y
component: both source functions are instances of the single
flag-parameterized implementation `calcForcesParam`, and the two net-force
computations differ exactly by that one term. -/
theorem c7_gravity_mode_refinement (g : Grid) (dt : F) (e : Bool)
    (rnd : Nat → ℚ × ℚ) :
    calculate_forces g dt e rnd = calcForcesParam false g dt e rnd ∧
    calculate_forces_with_gravity g dt e rnd = calcForcesParam true g dt e rnd ∧
    (∀ (i : Nat) (p : P),
      totalForceGravity g e rnd i p =
        ((totalForce g e rnd i p).1,
         fadd (totalForce g e rnd i p).2 (fmul GRAVITY MASS))) := by
  refine ⟨rfl, rfl, fun i p => ?_⟩
  simp only [totalForceGravity, totalForce]
  cases e with
  | false => rfl
  | true =>
    simp only [if_true]
    exact congrArg (Prod.mk _) (fadd_right_comm _ _ _)

/-- C8: the concrete 2 x 1 equilibrium lattice (nodes at `(-1, 10)` and
`(0, 10)`, zero velocities, all free) is left exactly unchanged by one
gravity-off, external-off step with any nonzero timestep: the neighbour
distance is exactly the rest length, so the net force is zero. -/
theorem c8_equilibrium (d : ℚ) (r : Nat → ℚ × ℚ) (hd : d ≠ 0) :
    calculate_forces ((Grid.new 2 1).get_neighbors) (some d) false r =
      (Grid.new 2 1).get_neighbors := by
  rw [g8_eq]
  simp [calculate_forces, newPosition, newVelocity, totalForce, springSum,
    springBody, fdiv, hd, MASS, DAMPING_COEFFICIENT, HALF, SPRING_COEFFICIENT,
    SPRING_RELAX_DISTANCE, pd, List.range_succ]

/-- Witness for C8 with timestep `1`. -/
theorem c8_equilibrium_witness : (1 : ℚ) ≠ 0 ∧
    calculate_forces ((Grid.new 2 1).get_neighbors) (some 1) false
      (fun _ => (0, 0)) = (Grid.new 2 1).get_neighbors :=
  ⟨one_ne_zero, c8_equilibrium 1 (fun _ => (0, 0)) one_ne_zero⟩

/-- C9 counterexample: the gravity toggle is re-read at every sub-step of one
scheduler tick, not once before the sub-steps: two gravity-toggle read
sequences that agree on the first read (both `true` at read 0) but differ
afterwards give different tick results on a free one-node lattice, so the
force-model variant does change between the sub-steps of one invocation. -/
theorem c9_counterexample :
    ((fun _ : Nat => true) 0 = (fun k : Nat => decide (k = 0)) 0) ∧
    tick ⟨1, 1, [((some 0 : F), (some 10 : F))], [((some 0 : F), (some 0 : F))],
        [false], [[]]⟩ 30 (some 1) (fun _ => true) (fun _ => false)
        (fun _ _ => (0, 0)) ≠
    tick ⟨1, 1, [((some 0 : F), (some 10 : F))], [((some 0 : F), (some 0 : F))],
        [false], [[]]⟩ 30 (some 1) (fun k => decide (k = 0)) (fun _ => false)
        (fun _ _ => (0, 0)) := by
  refine ⟨rfl, ?_⟩
  simp only [tick]
  rw [show (List.range 20) = [0, 1, 2, 3, 4, 5, 6, 7, 8, 9, 10, 11, 12, 13, 14,
    15, 16, 17, 18, 19] from rfl]
  simp only [if_pos (by norm_num : (30 : Nat) < 100), List.foldl_cons,
    List.foldl_nil, decide_eq_true_eq, if_true, step_mk1_gravity,
    step_mk1_nogravity]
  norm_num [step_mk1_gravity, step_mk1_nogravity, Grid.mk.injEq]

/-- C9 amended: within one scheduler tick the external toggle is read exactly
once, before the sub-steps, so the tick result depends only on that first
external read; the gravity toggle, by contrast, is read once per sub-step
(see the counterexample). -/
theorem c9_external_read_once (g : Grid) (height : Nat) (dt : F)
    (gl e1 e2 : Nat → Bool) (rnds : Nat → Nat → ℚ × ℚ) (h : e1 0 = e2 0) :
    tick g height dt gl e1 rnds = tick g height dt gl e2 rnds := by
  simp only [tick, h]

/-- Witness for C9 (amended): two external-read sequences agreeing at read 0
give the same tick result. -/
theorem c9_external_read_once_witness :
    ((fun _ : Nat => false) 0 = (fun k : Nat => decide (0 < k)) 0) ∧
    tick ⟨1, 1, [((some 0 : F), (some 10 : F))], [((some 0 : F), (some 0 : F))],
        [false], [[]]⟩ 30 (some 1) (fun _ => true) (fun _ => false)
        (fun _ _ => (0, 0)) =
    tick ⟨1, 1, [((some 0 : F), (some 10 : F))], [((some 0 : F), (some 0 : F))],
        [false], [[]]⟩ 30 (some 1) (fun _ => true) (fun k => decide (0 < k))
        (fun _ _ => (0, 0)) :=
  ⟨rfl, c9_external_read_once _ 30 (some 1) (fun _ => true) (fun _ => false)
    (fun k => decide (0 < k)) (fun _ _ => (0, 0)) rfl⟩

/-- C10: `get_index` performs no bounds check: it returns
`n * height + m` for every input, and the out-of-range coordinate
`(0, height)` aliases the linear index of `(1, 0)` on every grid (an
in-bounds node whenever `width >= 2` and `height >= 1`). -/
theorem c10_get_index_unchecked :
    (∀ (g : Grid) (n m : Nat), g.get_index n m = n * g.height + m) ∧
    (∀ g : Grid, g.get_index 0 g.height = g.get_index 1 0) ∧
    (∀ g : Grid, 2 ≤ g.width → 1 ≤ g.height →
      g.get_index 0 g.height = g.get_index 1 0 ∧ 1 < g.width ∧ 0 < g.height) := by
  refine ⟨fun g n m => rfl, fun g => ?_, fun g hw hh => ⟨?_, by omega, by omega⟩⟩
  · simp [Grid.get_index]
  · simp [Grid.get_index]

/-- Witness for C10 on a concrete grid of width 2 and height 1. -/
theorem c10_get_index_unchecked_witness :
    2 ≤ (⟨2, 1, [], [], [], []⟩ : Grid).width ∧
    (⟨2, 1, [], [], [], []⟩ : Grid).get_index 0 1 =
      (⟨2, 1, [], [], [], []⟩ : Grid).get_index 1 0 :=
  ⟨by decide,
    (c10_get_index_unchecked.2.2 ⟨2, 1, [], [], [], []⟩ (by decide)
      (by decide)).1⟩
